import Mathlib

/-!
Verification development for the AirVision traffic pipeline
(`src/traffic_data/fetch_traffic_data.py`).

Numbers are modelled as exact rationals (`ℚ`).  Python's `round(x, n)`
uses round-half-to-even on binary floats; we model it as integer rounding
of `x * 10^n` followed by division.  No property proved here depends on
the behaviour at exact half-way ties.
-/

namespace AirVision

unseal Rat.add Rat.mul Rat.inv Rat.sub Rat.ofScientific

/-! ## Configuration constants (fetch_traffic_data.py, lines 36-42) -/

/-- Average emission factors for diesel buses (g/km): CO, NOx, PM2.5, CO2. -/
inductive Pollutant where
  | CO
  | NOx
  | PM25
  | CO2
deriving DecidableEq

def EMISSION_FACTORS : Pollutant → ℚ
  | .CO => 6.0
  | .NOx => 8.0
  | .PM25 => 0.5
  | .CO2 => 1100.0

def SPEED_MAX_M_S : ℚ := 30.0
def LAT_MIN : ℚ := 28.5
def LAT_MAX : ℚ := 28.8
def LON_MIN : ℚ := 77.0
def LON_MAX : ℚ := 77.4

/-! ## Validation helpers (lines 45-52) -/

/-- `validate_location`: latitude/longitude within Delhi bounds. -/
def validate_location (lat lon : ℚ) : Bool :=
  decide (LAT_MIN ≤ lat ∧ lat ≤ LAT_MAX ∧ LON_MIN ≤ lon ∧ lon ≤ LON_MAX)

/-- `validate_speed`: speed is reasonable (0-30 m/s). -/
def validate_speed (speed : ℚ) : Bool :=
  decide (0.0 ≤ speed ∧ speed ≤ SPEED_MAX_M_S)

/-! ## Rounding model -/

/-- Rounding of a rational to the nearest integer (computable form). -/
def pyRound (q : ℚ) : ℤ :=
  (q + 1 / 2).floor

/-- Model of Python `round(q, n)` on exact rationals. -/
def roundTo (n : ℕ) (q : ℚ) : ℚ :=
  ((pyRound (q * 10 ^ n) : ℤ) : ℚ) / 10 ^ n

/-- Bounds of `datetime.fromtimestamp(ts, timezone.utc)`: epoch seconds of
`datetime.min` and `datetime.max`. Within int64, values outside this range
raise `ValueError`/`OSError`, which lines 116-118 catch (entity skipped). -/
def minEpochSeconds : ℤ := -62135596800

def maxEpochSeconds : ℤ := 253402300799

def timestampConvertible (t : ℤ) : Bool :=
  decide (minEpochSeconds ≤ t ∧ t ≤ maxEpochSeconds)

/-- `datetime.fromtimestamp` first converts the epoch to a C 64-bit
integer; values outside int64 (in particular uint64 feed timestamps
`≥ 2^63`) raise `OverflowError`, which `except (ValueError, OSError)` at
lines 116-118 does NOT catch: the exception escapes `process_vehicles`
instead of skipping the entity. -/
def timestampOverflow (t : ℤ) : Bool :=
  decide (t < -(2 ^ 63) ∨ 2 ^ 63 ≤ t)

/-! ## Data model: decoded feed entities -/

/-- A protobuf `Position`: latitude/longitude always readable, speed an
optional field (`getattr(v.position, "speed", 0.0)` defaults it to 0.0). -/
structure Position where
  latitude : ℚ
  longitude : ℚ
  speed : Option ℚ
deriving DecidableEq

/-- The `vehicle` sub-message of a feed entity: position and timestamp are
optional (`HasField`), and the device-level identifier may be absent
(`getattr(v, "id", None)`). -/
structure VehicleData where
  position : Option Position
  timestamp : Option ℤ
  id : Option String
deriving DecidableEq

/-- One decoded feed entity: entity-level id, whether it declares vehicle
telemetry (`HasField("vehicle")`), and the vehicle sub-message. -/
structure FeedEntity where
  id : String
  hasVehicle : Bool
  vehicle : VehicleData
deriving DecidableEq

/-- One output row of `process_vehicles` (timestamp kept as epoch seconds;
the ISO-8601 rendering is injective in it, so dedup equality agrees). -/
structure Record where
  vehicle_id : String
  timestamp : ℤ
  latitude : ℚ
  longitude : ℚ
  speed_m_s : ℚ
  CO : ℚ
  NOx : ℚ
  PM25 : ℚ
  CO2 : ℚ
deriving DecidableEq

/-- `getattr(v, "id", None) or entity.id or "unknown"` — Python `or`
falls through on `None` and on the empty string. -/
def resolveVehicleId (vid : Option String) (eid : String) : String :=
  match vid with
  | some s => if s = "" then (if eid = "" then "unknown" else eid) else s
  | none => if eid = "" then "unknown" else eid

/-- Outcome of one iteration of the `process_vehicles` loop body for one
entity: keep a row, skip (`continue` after `skipped += 1`), or raise an
uncaught `OverflowError` out of the loop. -/
inductive CheckResult where
  | keep (r : Record)
  | skip
  | overflow
deriving DecidableEq

/-- The per-entity body of the `process_vehicles` loop (lines 94-138):
required-field check, location check, speed check, then the timestamp
conversion, which keeps the entity, skips it (caught
`ValueError`/`OSError`), or raises an uncaught `OverflowError`. -/
def checkEntity (entity : FeedEntity) : CheckResult :=
  let v := entity.vehicle
  match v.position, v.timestamp with
  | some pos, some ts =>
    let lat := pos.latitude
    let lon := pos.longitude
    let speed := pos.speed.getD 0.0
    if validate_location lat lon then
      if validate_speed speed then
        if timestampOverflow ts then .overflow
        else if timestampConvertible ts then
          let vehicle_id := resolveVehicleId v.id entity.id
          let distance_km := speed * 3.6 / 60.0
          .keep {
            vehicle_id := vehicle_id
            timestamp := ts
            latitude := roundTo 6 lat
            longitude := roundTo 6 lon
            speed_m_s := roundTo 2 speed
            CO := roundTo 2 (EMISSION_FACTORS .CO * distance_km)
            NOx := roundTo 2 (EMISSION_FACTORS .NOx * distance_km)
            PM25 := roundTo 2 (EMISSION_FACTORS .PM25 * distance_km)
            CO2 := roundTo 2 (EMISSION_FACTORS .CO2 * distance_km)
          }
        else .skip
      else .skip
    else .skip
  | _, _ => .skip

/-- The accumulation loop of `process_vehicles`: rows in order plus the
skipped counter; `none` models the uncaught `OverflowError` escaping the
loop (the partial rows and counter are lost with the raise). -/
def processLoop (acc : List Record) (skipped : ℕ) :
    List FeedEntity → Option (List Record × ℕ)
  | [] => some (acc, skipped)
  | e :: es =>
    match checkEntity e with
    | .keep r => processLoop (acc ++ [r]) skipped es
    | .skip => processLoop acc (skipped + 1) es
    | .overflow => none

/-- `process_vehicles` up to the DataFrame build: `none` when the loop
raises, otherwise the rows and the skipped count. -/
def processVehicles (entities : List FeedEntity) : Option (List Record × ℕ) :=
  processLoop [] 0 entities

/-- The record an entity contributes when it is kept. -/
def keepOf (e : FeedEntity) : Option Record :=
  match checkEntity e with
  | .keep r => some r
  | _ => none

/-! ## Deduplication (line 145): `drop_duplicates(subset=["vehicle_id",
"timestamp"], keep="first")` -/

def recordKey (r : Record) : String × ℤ :=
  (r.vehicle_id, r.timestamp)

def dedupAux (seen : List (String × ℤ)) : List Record → List Record
  | [] => []
  | r :: rs =>
    if recordKey r ∈ seen then dedupAux seen rs
    else r :: dedupAux (recordKey r :: seen) rs

def dedupRecords (rows : List Record) : List Record :=
  dedupAux [] rows

/-- The DataFrame returned by `process_vehicles`: rows after dedup, or
`none` when the loop raised. -/
def processedFrame (entities : List FeedEntity) : Option (List Record) :=
  match processVehicles entities with
  | none => none
  | some (rows, _) => some (dedupRecords rows)

/-! ## Fetch model (`fetch_traffic_data`, lines 55-86) -/

/-- Outcome of one HTTP request in the retry loop: success with the raw
byte payload, `requests.Timeout`, or any other `requests.RequestException`. -/
inductive AttemptOutcome where
  | success (payload : String)
  | timeout
  | requestFailed
deriving DecidableEq

/-- Result of the retry loop: the payload together with the index of the
successful attempt, or the `sys.exit(1)` taken inside the loop. -/
inductive FetchOutcome where
  | gotPayload (attemptIndex : ℕ) (payload : String)
  | exitTimeout
  | exitRequestFailed (attemptIndex : ℕ)
deriving DecidableEq

def max_retries : ℕ := 3

/-- The body of `for attempt in range(max_retries)`: `i` is the current
attempt index, the second argument the number of loop iterations left.
A timeout on the last iteration (`attempt == max_retries - 1`) exits. -/
def attemptLoop (oracle : ℕ → AttemptOutcome) (i : ℕ) : ℕ → FetchOutcome
  | 0 => .exitTimeout
  | remaining + 1 =>
    match oracle i with
    | .success p => .gotPayload i p
    | .requestFailed => .exitRequestFailed i
    | .timeout =>
      if remaining = 0 then .exitTimeout
      else attemptLoop oracle (i + 1) remaining

/-- The retry loop of `fetch_traffic_data`, driven by an oracle giving
each attempt's outcome. -/
def fetchAttempts (oracle : ℕ → AttemptOutcome) : FetchOutcome :=
  attemptLoop oracle 0 max_retries

/-! ## Whole-run model (`main`, lines 201-216, plus the fatal branches
inside `fetch_traffic_data`, `save_raw_data`) -/

/-- Environment of one run: outcome of each HTTP request, the protobuf
decode of a payload (`none` = parse failure), and whether each of the
three store writes would succeed. -/
structure Env where
  oracle : ℕ → AttemptOutcome
  decode : String → Option (List FeedEntity)
  rawWriteOk : Bool
  countAppendOk : Bool
  summaryAppendOk : Bool

/-- Which writes a run attempted and which succeeded. -/
structure WriteLog where
  rawAttempted : Bool
  rawSucceeded : Bool
  countAttempted : Bool
  countSucceeded : Bool
  summaryAttempted : Bool
  summarySucceeded : Bool
deriving DecidableEq

def noWrites : WriteLog :=
  ⟨false, false, false, false, false, false⟩

/-- The payload obtained by `fetch_traffic_data`'s retry loop, if any. -/
def fetchedPayload (env : Env) : Option String :=
  match fetchAttempts env.oracle with
  | .gotPayload _ p => some p
  | _ => none

/-- The entity list after protobuf parsing and the
`e.HasField("vehicle")` filter (line 80), if fetch and parse succeeded. -/
def decodedVehicles (env : Env) : Option (List FeedEntity) :=
  match fetchedPayload env with
  | none => none
  | some p =>
    match env.decode p with
    | none => none
    | some decoded => some (decoded.filter (·.hasVehicle))

/-- One full run of `main`: exit code together with the write log.
Mirrors the fatal `sys.exit(1)` sites: fetch failure, parse failure,
empty vehicle list, an exception escaping `process_vehicles` (caught by
`main`'s blanket `except Exception`, which exits 1 before any write),
empty DataFrame after processing, raw-save failure; count-log and
summary append failures are logged and ignored. -/
def runMain (env : Env) : ℕ × WriteLog :=
  match decodedVehicles env with
  | none => (1, noWrites)
  | some entities =>
    if entities.isEmpty then (1, noWrites)
    else
      match processedFrame entities with
      | none => (1, noWrites)
      | some df =>
        if df.isEmpty then (1, noWrites)
        else if env.rawWriteOk then
          (0, { rawAttempted := true, rawSucceeded := true,
                countAttempted := true, countSucceeded := env.countAppendOk,
                summaryAttempted := true, summarySucceeded := env.summaryAppendOk })
        else
          (1, { rawAttempted := true, rawSucceeded := false,
                countAttempted := false, countSucceeded := false,
                summaryAttempted := false, summarySucceeded := false })

/-! ## Scenario inputs from the spec's testable properties -/

/-- Valid entity at (28.65, 77.3) with speed 10 m/s. -/
def scenarioEntityValid : FeedEntity :=
  { id := "E-valid", hasVehicle := true,
    vehicle := { position := some ⟨28.65, 77.3, some 10⟩,
                 timestamp := some 1700000000, id := some "B1" } }

/-- Entity missing its timestamp. -/
def scenarioEntityNoTimestamp : FeedEntity :=
  { id := "E-no-ts", hasVehicle := true,
    vehicle := { position := some ⟨28.6, 77.2, some 5⟩,
                 timestamp := none, id := some "B2" } }

/-- Entity with latitude 40.0, outside the Delhi bounds. -/
def scenarioEntityBadLat : FeedEntity :=
  { id := "E-bad-lat", hasVehicle := true,
    vehicle := { position := some ⟨40.0, 77.2, some 5⟩,
                 timestamp := some 1700000000, id := some "B3" } }

/-- The 3-entity feed of the spec's scenario. -/
def scenarioFeed : List FeedEntity :=
  [scenarioEntityNoTimestamp, scenarioEntityBadLat, scenarioEntityValid]

/-- The single record the scenario feed produces. -/
def scenarioRecord : Record :=
  { vehicle_id := "B1", timestamp := 1700000000, latitude := 28.65,
    longitude := 77.3, speed_m_s := 10,
    CO := 3.6, NOx := 4.8, PM25 := 0.3, CO2 := 660 }

/-- Written from the spec's words for C4 (refinement): keep the first
occurrence of each (vehicle identity, timestamp) key in iteration order,
drop all subsequent records with an already-seen key. -/
def keepFirstByKey : List Record → List Record
  | [] => []
  | r :: rs =>
    r :: keepFirstByKey (rs.filter (fun s => decide (recordKey s ≠ recordKey r)))
termination_by l => l.length
decreasing_by
  simpa [Nat.lt_succ_iff] using List.length_filter_le _ rs

/-- Two records sharing vehicle_id "V1" and a timestamp, differing only
in speed: the first. -/
def dupRecordA : Record :=
  { vehicle_id := "V1", timestamp := 1700000100, latitude := 28.6,
    longitude := 77.2, speed_m_s := 5,
    CO := 1.8, NOx := 2.4, PM25 := 0.15, CO2 := 330 }

/-- Same key as `dupRecordA`, different speed. -/
def dupRecordB : Record :=
  { vehicle_id := "V1", timestamp := 1700000100, latitude := 28.6,
    longitude := 77.2, speed_m_s := 12,
    CO := 4.32, NOx := 5.76, PM25 := 0.36, CO2 := 792 }

/-- Valid entity whose position lacks the speed field. -/
def scenarioEntityNoSpeed : FeedEntity :=
  { id := "E-no-speed", hasVehicle := true,
    vehicle := { position := some ⟨28.7, 77.1, none⟩,
                 timestamp := some 1700000200, id := none } }

/-- Entity passing the presence, location and speed checks whose uint64
feed timestamp `2^63` makes `datetime.fromtimestamp` raise an uncaught
`OverflowError`. -/
def overflowEntity : FeedEntity :=
  { id := "E-overflow", hasVehicle := true,
    vehicle := { position := some ⟨28.6, 77.2, some 5⟩,
                 timestamp := some (2 ^ 63), id := some "B9" } }

/-! ## Rounding lemmas -/

theorem pyRound_eq_floor (q : ℚ) : pyRound q = ⌊q + 1 / 2⌋ := by
  rw [pyRound, Rat.floor_def' (q + 1 / 2), Rat.floor_def]

theorem pyRound_mono {a b : ℚ} (h : a ≤ b) : pyRound a ≤ pyRound b := by
  rw [pyRound_eq_floor, pyRound_eq_floor]
  exact Int.floor_mono (by linarith)

theorem roundTo_mono (n : ℕ) {a b : ℚ} (h : a ≤ b) : roundTo n a ≤ roundTo n b := by
  unfold roundTo
  have hpow : (0 : ℚ) < 10 ^ n := by positivity
  have hmul : a * 10 ^ n ≤ b * 10 ^ n :=
    mul_le_mul_of_nonneg_right h (le_of_lt hpow)
  exact div_le_div_of_nonneg_right
    (by exact_mod_cast pyRound_mono hmul) hpow.le

/-- Rounding within fixed-point bounds stays within the bounds. -/
theorem roundTo_mem_Icc (n : ℕ) {lo hi q : ℚ}
    (hlo : roundTo n lo = lo) (hhi : roundTo n hi = hi)
    (h1 : lo ≤ q) (h2 : q ≤ hi) :
    lo ≤ roundTo n q ∧ roundTo n q ≤ hi :=
  ⟨hlo ▸ roundTo_mono n h1, hhi ▸ roundTo_mono n h2⟩

/-! ## The `process_vehicles` loop -/

theorem not_overflow_of_convertible {t : ℤ}
    (h : timestampConvertible t = true) : timestampOverflow t = false := by
  rw [timestampConvertible] at h
  rw [timestampOverflow]
  simp only [minEpochSeconds, maxEpochSeconds, decide_eq_true_eq] at h
  simp only [decide_eq_false_iff_not, not_or, not_lt, not_le]
  omega

theorem processLoop_none_iff (l : List FeedEntity) :
    ∀ (acc : List Record) (k : ℕ),
      processLoop acc k l = none ↔ ∃ e ∈ l, checkEntity e = .overflow := by
  induction l with
  | nil => intro acc k; simp [processLoop]
  | cons e es ih =>
    intro acc k
    rw [processLoop]
    cases hc : checkEntity e with
    | keep r => simp [ih, hc]
    | skip => simp [ih, hc]
    | overflow => simp [hc]

theorem processLoop_no_overflow (l : List FeedEntity) :
    ∀ (acc : List Record) (k : ℕ), (∀ e ∈ l, checkEntity e ≠ .overflow) →
      processLoop acc k l
        = some (acc ++ l.filterMap keepOf,
            k + (l.filter (fun e => decide (checkEntity e = .skip))).length) := by
  induction l with
  | nil => intro acc k _; simp [processLoop]
  | cons e es ih =>
    intro acc k h
    have h' : ∀ x ∈ es, checkEntity x ≠ .overflow :=
      fun x hx => h x (List.mem_cons_of_mem e hx)
    rw [processLoop]
    cases hc : checkEntity e with
    | keep r =>
      show processLoop (acc ++ [r]) k es = _
      rw [ih (acc ++ [r]) k h']
      simp [List.filterMap_cons, List.filter_cons, keepOf, hc]
    | skip =>
      show processLoop acc (k + 1) es = _
      rw [ih acc (k + 1) h']
      simp [List.filterMap_cons, List.filter_cons, keepOf, hc,
        Nat.add_comm, Nat.add_assoc, Nat.add_left_comm]
    | overflow => exact absurd hc (h e (List.mem_cons_self e es))

/-- Inversion of a completed (non-raising) `process_vehicles` run. -/
theorem processVehicles_some_inv {entities : List FeedEntity}
    {rows : List Record} {skipped : ℕ}
    (h : processVehicles entities = some (rows, skipped)) :
    rows = entities.filterMap keepOf
    ∧ skipped = (entities.filter (fun e => decide (checkEntity e = .skip))).length
    ∧ ∀ e ∈ entities, checkEntity e ≠ .overflow := by
  have hno : ∀ e ∈ entities, checkEntity e ≠ .overflow := by
    intro e he hov
    have hnone : processVehicles entities = none :=
      (processLoop_none_iff entities [] 0).mpr ⟨e, he, hov⟩
    rw [hnone] at h
    exact absurd h (by simp)
  have heq := processLoop_no_overflow entities [] 0 hno
  rw [processVehicles, heq] at h
  obtain ⟨h1, h2⟩ := Prod.mk.injEq .. ▸ Option.some_inj.mp h
  exact ⟨by simpa using h1.symm, by simpa using h2.symm, hno⟩

/-- Inversion: a kept entity passed every check and its record fields
are exactly the ones built at lines 129-138. -/
theorem checkEntity_keep_inv {e : FeedEntity} {r : Record}
    (h : checkEntity e = .keep r) :
    ∃ pos ts, e.vehicle.position = some pos ∧ e.vehicle.timestamp = some ts
      ∧ validate_location pos.latitude pos.longitude = true
      ∧ validate_speed (pos.speed.getD 0.0) = true
      ∧ timestampOverflow ts = false
      ∧ timestampConvertible ts = true
      ∧ r = { vehicle_id := resolveVehicleId e.vehicle.id e.id
              timestamp := ts
              latitude := roundTo 6 pos.latitude
              longitude := roundTo 6 pos.longitude
              speed_m_s := roundTo 2 (pos.speed.getD 0.0)
              CO := roundTo 2 (EMISSION_FACTORS .CO * (pos.speed.getD 0.0 * 3.6 / 60.0))
              NOx := roundTo 2 (EMISSION_FACTORS .NOx * (pos.speed.getD 0.0 * 3.6 / 60.0))
              PM25 := roundTo 2 (EMISSION_FACTORS .PM25 * (pos.speed.getD 0.0 * 3.6 / 60.0))
              CO2 := roundTo 2 (EMISSION_FACTORS .CO2 * (pos.speed.getD 0.0 * 3.6 / 60.0)) } := by
  cases hp : e.vehicle.position with
  | none => rw [checkEntity, hp] at h; exact absurd h (by simp)
  | some pos =>
    cases ht : e.vehicle.timestamp with
    | none => rw [checkEntity, hp, ht] at h; exact absurd h (by simp)
    | some ts =>
      rw [checkEntity, hp, ht] at h
      by_cases hl : validate_location pos.latitude pos.longitude
      · by_cases hs : validate_speed (pos.speed.getD 0.0)
        · by_cases hov : timestampOverflow ts
          · simp [hl, hs, hov] at h
          · by_cases hc : timestampConvertible ts
            · refine ⟨pos, ts, rfl, rfl, hl, hs, by simpa using hov, hc, ?_⟩
              simp [hl, hs, hov, hc] at h
              exact h.symm
            · simp [hl, hs, hov, hc] at h
        · simp [hl, hs] at h
      · simp [hl] at h

/-- Forward direction: an entity passing every check with a convertible
timestamp is kept. -/
theorem checkEntity_keep_of {e : FeedEntity} {pos : Position} {ts : ℤ}
    (hp : e.vehicle.position = some pos) (ht : e.vehicle.timestamp = some ts)
    (hl : validate_location pos.latitude pos.longitude = true)
    (hs : validate_speed (pos.speed.getD 0.0) = true)
    (hc : timestampConvertible ts = true) :
    checkEntity e
      = .keep { vehicle_id := resolveVehicleId e.vehicle.id e.id
                timestamp := ts
                latitude := roundTo 6 pos.latitude
                longitude := roundTo 6 pos.longitude
                speed_m_s := roundTo 2 (pos.speed.getD 0.0)
                CO := roundTo 2 (EMISSION_FACTORS .CO * (pos.speed.getD 0.0 * 3.6 / 60.0))
                NOx := roundTo 2 (EMISSION_FACTORS .NOx * (pos.speed.getD 0.0 * 3.6 / 60.0))
                PM25 := roundTo 2 (EMISSION_FACTORS .PM25 * (pos.speed.getD 0.0 * 3.6 / 60.0))
                CO2 := roundTo 2 (EMISSION_FACTORS .CO2 * (pos.speed.getD 0.0 * 3.6 / 60.0)) } := by
  have hov : timestampOverflow ts = false := not_overflow_of_convertible hc
  rw [checkEntity, hp, ht]
  simp [hl, hs, hov, hc]

/-! ## Deduplication lemmas -/

theorem dedupAux_sublist (seen : List (String × ℤ)) (l : List Record) :
    (dedupAux seen l).Sublist l := by
  induction l generalizing seen with
  | nil => simp [dedupAux]
  | cons r rs ih =>
    rw [dedupAux]
    by_cases h : recordKey r ∈ seen
    · simp only [h, if_true]
      exact (ih seen).trans (List.sublist_cons_self r rs)
    · simp only [h, if_false]
      exact List.Sublist.cons₂ r (ih _)

theorem keepFirstByKey_nil : keepFirstByKey [] = [] := by
  rw [keepFirstByKey.eq_def]

theorem keepFirstByKey_cons (r : Record) (rs : List Record) :
    keepFirstByKey (r :: rs)
      = r :: keepFirstByKey (rs.filter (fun s => decide (recordKey s ≠ recordKey r))) := by
  rw [keepFirstByKey.eq_def]

theorem dedupAux_eq_keepFirst (l : List Record) (seen : List (String × ℤ)) :
    dedupAux seen l
      = keepFirstByKey (l.filter (fun r => decide (recordKey r ∉ seen))) := by
  induction l generalizing seen with
  | nil => simp [dedupAux, keepFirstByKey_nil]
  | cons r rs ih =>
    rw [dedupAux, List.filter_cons]
    by_cases h : recordKey r ∈ seen
    · have hd : (decide (recordKey r ∉ seen)) = false := by simp [h]
      simp only [h, if_true, hd, Bool.false_eq_true, if_false]
      exact ih seen
    · have hd : (decide (recordKey r ∉ seen)) = true := by simp [h]
      rw [if_neg h]
      simp only [hd, if_true]
      rw [keepFirstByKey_cons]
      simp only [List.cons.injEq, true_and]
      rw [ih (recordKey r :: seen), List.filter_filter]
      congr 1
      apply List.filter_congr
      intro s _
      by_cases hs : recordKey s = recordKey r
      · simp [hs]
      · by_cases hs2 : recordKey s ∈ seen <;> simp [hs, hs2]

theorem dedupRecords_eq_keepFirst (l : List Record) :
    dedupRecords l = keepFirstByKey l := by
  rw [dedupRecords, dedupAux_eq_keepFirst]
  congr 1
  apply List.filter_eq_self.mpr
  intro r _
  simp

theorem keepFirst_filter_key_aux (k : String × ℤ) :
    ∀ (n : ℕ) (l : List Record), l.length ≤ n →
      keepFirstByKey (l.filter (fun s => decide (recordKey s ≠ k)))
        = (keepFirstByKey l).filter (fun s => decide (recordKey s ≠ k)) := by
  intro n
  induction n with
  | zero =>
    intro l hl
    rw [Nat.le_zero, List.length_eq_zero] at hl
    subst hl
    simp [keepFirstByKey]
  | succ n ih =>
    intro l hl
    cases l with
    | nil => simp [keepFirstByKey_nil]
    | cons r rs =>
      have hrs : rs.length ≤ n := Nat.le_of_succ_le_succ hl
      have hflen : (rs.filter (fun s => decide (recordKey s ≠ recordKey r))).length ≤ n :=
        le_trans (List.length_filter_le _ rs) hrs
      rw [List.filter_cons]
      by_cases hk : recordKey r = k
      · have hd : (decide (recordKey r ≠ k)) = false := by simp [hk]
        simp only [hd, Bool.false_eq_true, if_false]
        rw [keepFirstByKey_cons, List.filter_cons]
        simp only [hd, Bool.false_eq_true, if_false]
        rw [← ih (rs.filter (fun s => decide (recordKey s ≠ recordKey r))) hflen]
        rw [List.filter_filter]
        congr 1
        apply List.filter_congr
        intro s _
        by_cases hs : recordKey s = k <;> simp [hs, hk]
      · have hd : (decide (recordKey r ≠ k)) = true := by simp [hk]
        simp only [hd, if_true]
        rw [keepFirstByKey_cons, keepFirstByKey_cons, List.filter_cons]
        simp only [hd, if_true, List.cons.injEq, true_and]
        rw [← ih (rs.filter (fun s => decide (recordKey s ≠ recordKey r))) hflen]
        rw [List.filter_filter, List.filter_filter]
        congr 1
        apply List.filter_congr
        intro s _
        by_cases h1 : recordKey s = k <;> by_cases h2 : recordKey s = recordKey r <;>
          simp [h1, h2]

theorem keepFirst_idem_aux :
    ∀ (n : ℕ) (l : List Record), l.length ≤ n →
      keepFirstByKey (keepFirstByKey l) = keepFirstByKey l := by
  intro n
  induction n with
  | zero =>
    intro l hl
    rw [Nat.le_zero, List.length_eq_zero] at hl
    subst hl
    simp [keepFirstByKey_nil]
  | succ n ih =>
    intro l hl
    cases l with
    | nil => simp [keepFirstByKey_nil]
    | cons r rs =>
      have hrs : rs.length ≤ n := Nat.le_of_succ_le_succ hl
      have hlen : (rs.filter (fun s => decide (recordKey s ≠ recordKey r))).length ≤ n :=
        le_trans (List.length_filter_le _ rs) hrs
      rw [keepFirstByKey_cons]
      conv_lhs => rw [keepFirstByKey_cons]
      simp only [List.cons.injEq, true_and]
      have hcomm :=
        keepFirst_filter_key_aux (recordKey r) n
          (rs.filter (fun s => decide (recordKey s ≠ recordKey r))) hlen
      rw [← hcomm, List.filter_filter]
      have heq :
          (rs.filter fun s =>
              decide (recordKey s ≠ recordKey r) && decide (recordKey s ≠ recordKey r))
            = rs.filter (fun s => decide (recordKey s ≠ recordKey r)) := by
        apply List.filter_congr
        intro s _
        by_cases hs : recordKey s = recordKey r <;> simp [hs]
      rw [heq]
      exact ih _ hlen

theorem dedupRecords_idem (l : List Record) :
    dedupRecords (dedupRecords l) = dedupRecords l := by
  rw [dedupRecords_eq_keepFirst, dedupRecords_eq_keepFirst]
  exact keepFirst_idem_aux l.length l le_rfl

theorem dedupRecords_nil_iff (l : List Record) :
    dedupRecords l = [] ↔ l = [] := by
  cases l with
  | nil => simp [dedupRecords, dedupAux]
  | cons r rs => simp [dedupRecords, dedupAux]

/-! ## Validation predicates as propositions -/

theorem validate_location_iff {lat lon : ℚ} :
    validate_location lat lon = true
      ↔ LAT_MIN ≤ lat ∧ lat ≤ LAT_MAX ∧ LON_MIN ≤ lon ∧ lon ≤ LON_MAX := by
  rw [validate_location]
  simp

theorem validate_speed_iff {s : ℚ} :
    validate_speed s = true ↔ 0 ≤ s ∧ s ≤ SPEED_MAX_M_S := by
  rw [validate_speed]
  norm_num

/-! ## Claim theorems C1-C4 -/

/-- C1: the claim says validation is a pure filter that never fails or
raises and that every entity with a non-convertible epoch is dropped and
counted. The code contradicts it: `overflowEntity` passes the presence,
location and speed checks, its uint64 timestamp `2^63` is out of range
(so per the claim it should be skipped), but `datetime.fromtimestamp`
raises `OverflowError` there, which `except (ValueError, OSError)` does
not catch: `process_vehicles` raises instead of dropping and counting. -/
theorem validation_raises_on_overflow_timestamp :
    validate_location 28.6 77.2 = true
    ∧ validate_speed 5 = true
    ∧ timestampConvertible (2 ^ 63) = false
    ∧ checkEntity overflowEntity = .overflow
    ∧ processVehicles [overflowEntity] = none :=
  ⟨by decide, by decide, by decide, by decide, by decide⟩

/-- C2: every record in the processed frame satisfies the declared
bounds on its stored (rounded) latitude, longitude and speed, and the raw
pre-rounding values of any kept entity satisfy the same bounds. -/
theorem validated_record_bounds :
    (∀ (entities : List FeedEntity) (rows : List Record) (r : Record),
        processedFrame entities = some rows → r ∈ rows →
        LAT_MIN ≤ r.latitude ∧ r.latitude ≤ LAT_MAX
        ∧ LON_MIN ≤ r.longitude ∧ r.longitude ≤ LON_MAX
        ∧ 0 ≤ r.speed_m_s ∧ r.speed_m_s ≤ SPEED_MAX_M_S)
    ∧ (∀ (e : FeedEntity) (pos : Position) (r : Record),
        e.vehicle.position = some pos → checkEntity e = .keep r →
        LAT_MIN ≤ pos.latitude ∧ pos.latitude ≤ LAT_MAX
        ∧ LON_MIN ≤ pos.longitude ∧ pos.longitude ≤ LON_MAX
        ∧ 0 ≤ pos.speed.getD 0.0 ∧ pos.speed.getD 0.0 ≤ SPEED_MAX_M_S) := by
  constructor
  · intro entities rows r hpf hmem
    obtain ⟨rows0, skipped, hpv, hrows⟩ :
        ∃ rows0 skipped, processVehicles entities = some (rows0, skipped)
          ∧ rows = dedupRecords rows0 := by
      rw [processedFrame] at hpf
      cases hpv : processVehicles entities with
      | none => rw [hpv] at hpf; exact absurd hpf (by simp)
      | some p =>
        rw [hpv] at hpf
        exact ⟨p.1, p.2, rfl, (Option.some_inj.mp hpf).symm⟩
    subst hrows
    have hmem2 : r ∈ rows0 := (dedupAux_sublist [] rows0).subset hmem
    obtain ⟨hfm, _, _⟩ := processVehicles_some_inv hpv
    rw [hfm] at hmem2
    obtain ⟨e, _, hkof⟩ := List.mem_filterMap.mp hmem2
    have hkeep : checkEntity e = .keep r := by
      rw [keepOf] at hkof
      cases hc : checkEntity e with
      | keep r' =>
        rw [hc] at hkof
        rw [Option.some_inj.mp hkof]
      | skip => rw [hc] at hkof; simp at hkof
      | overflow => rw [hc] at hkof; simp at hkof
    obtain ⟨pos, ts, hp, ht, hl, hs, _, hc, hr⟩ := checkEntity_keep_inv hkeep
    obtain ⟨hla1, hla2, hlo1, hlo2⟩ := validate_location_iff.mp hl
    obtain ⟨hs1, hs2⟩ := validate_speed_iff.mp hs
    have hlat := roundTo_mem_Icc 6 (by decide : roundTo 6 LAT_MIN = LAT_MIN)
      (by decide : roundTo 6 LAT_MAX = LAT_MAX) hla1 hla2
    have hlon := roundTo_mem_Icc 6 (by decide : roundTo 6 LON_MIN = LON_MIN)
      (by decide : roundTo 6 LON_MAX = LON_MAX) hlo1 hlo2
    have hsp := roundTo_mem_Icc 2 (by decide : roundTo 2 (0 : ℚ) = 0)
      (by decide : roundTo 2 SPEED_MAX_M_S = SPEED_MAX_M_S) hs1 hs2
    subst hr
    exact ⟨hlat.1, hlat.2, hlon.1, hlon.2, hsp.1, hsp.2⟩
  · intro e pos r hp hr
    obtain ⟨pos', ts, hp', ht, hl, hs, _, hc, _⟩ := checkEntity_keep_inv hr
    have hpe : pos' = pos := by rw [hp] at hp'; exact (Option.some_inj.mp hp').symm
    subst hpe
    obtain ⟨hla1, hla2, hlo1, hlo2⟩ := validate_location_iff.mp hl
    obtain ⟨hs1, hs2⟩ := validate_speed_iff.mp hs
    exact ⟨hla1, hla2, hlo1, hlo2, hs1, hs2⟩

/-- Witness for C2 at the concrete scenario feed. -/
theorem validated_record_bounds_witness :
    LAT_MIN ≤ scenarioRecord.latitude ∧ scenarioRecord.latitude ≤ LAT_MAX
    ∧ LON_MIN ≤ scenarioRecord.longitude ∧ scenarioRecord.longitude ≤ LON_MAX
    ∧ 0 ≤ scenarioRecord.speed_m_s ∧ scenarioRecord.speed_m_s ≤ SPEED_MAX_M_S :=
  validated_record_bounds.1 scenarioFeed [scenarioRecord] scenarioRecord
    (by decide) (List.mem_singleton_self _)

/-- C3: each pollutant estimate of a kept record equals the rounded
product of its emission factor with the per-minute distance
`speed * 3.6 / 60`, the factors are CO=6.0, NOx=8.0, PM2.5=0.5,
CO2=1100.0, and the 3-entity scenario feed yields exactly one record
whose CO estimate is 3.60. -/
theorem emission_estimate_formula :
    (∀ (e : FeedEntity) (pos : Position) (r : Record),
        e.vehicle.position = some pos → checkEntity e = .keep r →
          r.CO = roundTo 2 (EMISSION_FACTORS .CO * (pos.speed.getD 0.0 * 3.6 / 60.0))
          ∧ r.NOx = roundTo 2 (EMISSION_FACTORS .NOx * (pos.speed.getD 0.0 * 3.6 / 60.0))
          ∧ r.PM25 = roundTo 2 (EMISSION_FACTORS .PM25 * (pos.speed.getD 0.0 * 3.6 / 60.0))
          ∧ r.CO2 = roundTo 2 (EMISSION_FACTORS .CO2 * (pos.speed.getD 0.0 * 3.6 / 60.0)))
    ∧ EMISSION_FACTORS .CO = 6.0 ∧ EMISSION_FACTORS .NOx = 8.0
    ∧ EMISSION_FACTORS .PM25 = 0.5 ∧ EMISSION_FACTORS .CO2 = 1100.0
    ∧ processVehicles scenarioFeed = some ([scenarioRecord], 2)
    ∧ scenarioRecord.CO = roundTo 2 (EMISSION_FACTORS .CO * ((10 : ℚ) * 3.6 / 60.0))
    ∧ scenarioRecord.CO = 3.6 := by
  refine ⟨?_, rfl, rfl, rfl, rfl, by decide, by decide, rfl⟩
  intro e pos r hp hr
  obtain ⟨pos', ts, hp', ht, hl, hs, _, hc, hrec⟩ := checkEntity_keep_inv hr
  have hpe : pos' = pos := by rw [hp] at hp'; exact (Option.some_inj.mp hp').symm
  subst hpe
  subst hrec
  exact ⟨rfl, rfl, rfl, rfl⟩

/-- Witness for C3 at the concrete valid scenario entity. -/
theorem emission_estimate_formula_witness :
    scenarioRecord.CO
      = roundTo 2 (EMISSION_FACTORS .CO
          * ((Position.mk 28.65 77.3 (some 10)).speed.getD 0.0 * 3.6 / 60.0))
    ∧ scenarioRecord.NOx
      = roundTo 2 (EMISSION_FACTORS .NOx
          * ((Position.mk 28.65 77.3 (some 10)).speed.getD 0.0 * 3.6 / 60.0))
    ∧ scenarioRecord.PM25
      = roundTo 2 (EMISSION_FACTORS .PM25
          * ((Position.mk 28.65 77.3 (some 10)).speed.getD 0.0 * 3.6 / 60.0))
    ∧ scenarioRecord.CO2
      = roundTo 2 (EMISSION_FACTORS .CO2
          * ((Position.mk 28.65 77.3 (some 10)).speed.getD 0.0 * 3.6 / 60.0)) :=
  emission_estimate_formula.1 scenarioEntityValid
    (Position.mk 28.65 77.3 (some 10)) scenarioRecord rfl (by decide)

/-- C4: deduplication keyed on (vehicle identity, timestamp) keeps exactly
the first occurrence of each key in iteration order, is idempotent, and on
two records sharing a key keeps the first-seen one. -/
theorem dedup_first_occurrence_idempotent :
    (∀ X : List Record, dedupRecords X = keepFirstByKey X)
    ∧ (∀ X : List Record, dedupRecords (dedupRecords X) = dedupRecords X)
    ∧ (∀ r1 r2 : Record, recordKey r1 = recordKey r2 →
        dedupRecords [r1, r2] = [r1]) := by
  refine ⟨dedupRecords_eq_keepFirst, dedupRecords_idem, ?_⟩
  intro r1 r2 h
  simp [dedupRecords, dedupAux, h]

/-- Witness for C4: two records with vehicle_id "V1" and equal timestamps
differing only in speed reduce to the first. -/
theorem dedup_first_occurrence_idempotent_witness :
    dedupRecords [dupRecordA, dupRecordB] = [dupRecordA] :=
  dedup_first_occurrence_idempotent.2.2 dupRecordA dupRecordB (by decide)

/-! ## Fetch-loop lemmas -/

theorem attemptLoop_succ (o : ℕ → AttemptOutcome) (i n : ℕ) :
    attemptLoop o i (n + 1)
      = match o i with
        | .success p => .gotPayload i p
        | .requestFailed => .exitRequestFailed i
        | .timeout => if n = 0 then .exitTimeout else attemptLoop o (i + 1) n := rfl

theorem attemptLoop_agree (o o' : ℕ → AttemptOutcome) :
    ∀ (rem i : ℕ), (∀ j, j < i + rem → o j = o' j) →
      attemptLoop o i rem = attemptLoop o' i rem := by
  intro rem
  induction rem with
  | zero => intro i _; rfl
  | succ n ih =>
    intro i h
    rw [attemptLoop_succ, attemptLoop_succ, h i (by omega)]
    cases o' i with
    | success p => rfl
    | requestFailed => rfl
    | timeout =>
      by_cases hn : n = 0
      · simp [hn]
      · simp only [hn, if_false]
        exact ih (i + 1) (fun j hj => h j (by omega))

theorem attemptLoop_zero (o : ℕ → AttemptOutcome) (i : ℕ) :
    attemptLoop o i 0 = .exitTimeout := rfl

/-- Full inversion of the retry loop on an arbitrary window. -/
theorem attemptLoop_inv (o : ℕ → AttemptOutcome) :
    ∀ (rem i0 : ℕ),
      (∀ (i : ℕ) (p : String), attemptLoop o i0 rem = .gotPayload i p →
        i0 ≤ i ∧ i < i0 + rem ∧ (∀ j, i0 ≤ j → j < i → o j = .timeout)
          ∧ o i = .success p)
      ∧ (∀ i : ℕ, attemptLoop o i0 rem = .exitRequestFailed i →
        i0 ≤ i ∧ i < i0 + rem ∧ (∀ j, i0 ≤ j → j < i → o j = .timeout)
          ∧ o i = .requestFailed)
      ∧ (attemptLoop o i0 rem = .exitTimeout →
        ∀ j, i0 ≤ j → j < i0 + rem → o j = .timeout) := by
  intro rem
  induction rem with
  | zero =>
    intro i0
    refine ⟨?_, ?_, ?_⟩
    · intro i p h
      rw [attemptLoop_zero] at h
      simp at h
    · intro i h
      rw [attemptLoop_zero] at h
      simp at h
    · intro _ j hj1 hj2
      omega
  | succ n ih =>
    intro i0
    refine ⟨?_, ?_, ?_⟩
    · intro i p h
      rw [attemptLoop_succ] at h
      cases ho : o i0 with
      | success p0 =>
        rw [ho] at h
        simp only [FetchOutcome.gotPayload.injEq] at h
        obtain ⟨h1, h2⟩ := h
        subst h1
        subst h2
        exact ⟨le_refl _, by omega, fun j hj1 hj2 => by omega, ho⟩
      | requestFailed =>
        rw [ho] at h
        simp at h
      | timeout =>
        rw [ho] at h
        by_cases hn : n = 0
        · simp [hn] at h
        · simp only [hn, if_false] at h
          obtain ⟨ha, hb, hc, hd⟩ := (ih (i0 + 1)).1 i p h
          refine ⟨by omega, by omega, ?_, hd⟩
          intro j hj1 hj2
          by_cases hji : j = i0
          · subst hji; exact ho
          · exact hc j (by omega) hj2
    · intro i h
      rw [attemptLoop_succ] at h
      cases ho : o i0 with
      | success p0 =>
        rw [ho] at h
        simp at h
      | requestFailed =>
        rw [ho] at h
        simp only [FetchOutcome.exitRequestFailed.injEq] at h
        subst h
        exact ⟨le_refl _, by omega, fun j hj1 hj2 => by omega, ho⟩
      | timeout =>
        rw [ho] at h
        by_cases hn : n = 0
        · simp [hn] at h
        · simp only [hn, if_false] at h
          obtain ⟨ha, hb, hc, hd⟩ := (ih (i0 + 1)).2.1 i h
          refine ⟨by omega, by omega, ?_, hd⟩
          intro j hj1 hj2
          by_cases hji : j = i0
          · subst hji; exact ho
          · exact hc j (by omega) hj2
    · intro h j hj1 hj2
      rw [attemptLoop_succ] at h
      cases ho : o i0 with
      | success p0 =>
        rw [ho] at h
        simp at h
      | requestFailed =>
        rw [ho] at h
        simp at h
      | timeout =>
        rw [ho] at h
        by_cases hn : n = 0
        · subst hn
          have hji : j = i0 := by omega
          subst hji
          exact ho
        · simp only [hn, if_false] at h
          by_cases hji : j = i0
          · subst hji; exact ho
          · exact (ih (i0 + 1)).2.2 h j (by omega) (by omega)

/-! ## Run-level lemmas -/

theorem decodedVehicles_update (env : Env) (b1 b2 : Bool) :
    decodedVehicles { env with countAppendOk := b1, summaryAppendOk := b2 }
      = decodedVehicles env := rfl

theorem runMain_of_dv_none {env : Env} (h : decodedVehicles env = none) :
    runMain env = (1, noWrites) := by
  rw [runMain, h]

theorem runMain_of_ents_nil {env : Env} (h : decodedVehicles env = some []) :
    runMain env = (1, noWrites) := by
  rw [runMain, h]
  simp

theorem runMain_of_abort {env : Env} {ents : List FeedEntity}
    (h : decodedVehicles env = some ents)
    (ha : processVehicles ents = none) :
    runMain env = (1, noWrites) := by
  rw [runMain, h]
  by_cases he : ents.isEmpty
  · simp [he]
  · have hpf : processedFrame ents = none := by rw [processedFrame, ha]
    simp [he, hpf]

theorem runMain_of_rows_nil {env : Env} {ents : List FeedEntity}
    {skipped : ℕ} (h : decodedVehicles env = some ents)
    (hpv : processVehicles ents = some ([], skipped)) :
    runMain env = (1, noWrites) := by
  rw [runMain, h]
  by_cases he : ents.isEmpty
  · simp [he]
  · have hpf : processedFrame ents = some [] := by
      rw [processedFrame, hpv]
      rfl
    simp [he, hpf]

theorem runMain_exit1_of_raw_fail {env : Env} {ents : List FeedEntity}
    (h : decodedVehicles env = some ents) (hw : env.rawWriteOk = false) :
    (runMain env).1 = 1 := by
  rw [runMain, h]
  by_cases he : ents.isEmpty
  · simp [he]
  · cases hpf : processedFrame ents with
    | none => simp [he, hpf]
    | some df =>
      by_cases hdf : df.isEmpty
      · simp [he, hpf, hdf]
      · simp [he, hpf, hdf, hw]

theorem runMain_success {env : Env} {ents : List FeedEntity}
    {rows : List Record} {skipped : ℕ}
    (h : decodedVehicles env = some ents)
    (hne : ents.isEmpty = false)
    (hpv : processVehicles ents = some (rows, skipped))
    (hrows : rows ≠ [])
    (hw : env.rawWriteOk = true) :
    runMain env
      = (0, { rawAttempted := true, rawSucceeded := true,
              countAttempted := true, countSucceeded := env.countAppendOk,
              summaryAttempted := true, summarySucceeded := env.summaryAppendOk }) := by
  have hpf : processedFrame ents = some (dedupRecords rows) := by
    rw [processedFrame, hpv]
  have hdf : (dedupRecords rows).isEmpty = false := by
    cases hd : dedupRecords rows with
    | nil => exact absurd ((dedupRecords_nil_iff _).mp hd) hrows
    | cons a as => rfl
  rw [runMain, h]
  simp [hne, hpf, hdf, hw]

/-! ## Claim theorems C5-C10 -/

/-- C5: the fetch makes at most `max_retries` = 3 attempts (its result
depends only on the first 3 oracle answers); after timeouts on every
earlier attempt, a success on attempt `i` returns that payload, a
non-timeout failure on attempt `i` is fatal immediately, and only when
all 3 attempts time out does the loop end with the timeout exit. -/
theorem fetch_retry_semantics :
    (∀ (o : ℕ → AttemptOutcome) (i : ℕ) (p : String),
        fetchAttempts o = .gotPayload i p ↔
          i < max_retries ∧ (∀ j, j < i → o j = .timeout) ∧ o i = .success p)
    ∧ (∀ (o : ℕ → AttemptOutcome) (i : ℕ),
        fetchAttempts o = .exitRequestFailed i ↔
          i < max_retries ∧ (∀ j, j < i → o j = .timeout) ∧ o i = .requestFailed)
    ∧ (∀ o : ℕ → AttemptOutcome,
        fetchAttempts o = .exitTimeout ↔ ∀ j, j < max_retries → o j = .timeout)
    ∧ (∀ o o' : ℕ → AttemptOutcome,
        (∀ j, j < max_retries → o j = o' j) →
        fetchAttempts o = fetchAttempts o') := by
  refine ⟨?_, ?_, ?_, ?_⟩
  · intro o i p
    constructor
    · intro h
      obtain ⟨_, hb, hc, hd⟩ := (attemptLoop_inv o max_retries 0).1 i p h
      exact ⟨by omega, fun j hj => hc j (by omega) hj, hd⟩
    · rintro ⟨hi, hprev, hs⟩
      have hi3 : i < 3 := hi
      interval_cases i
      · simp [fetchAttempts, max_retries, attemptLoop_succ, hs]
      · have h0 := hprev 0 (by norm_num)
        simp [fetchAttempts, max_retries, attemptLoop_succ, h0, hs]
      · have h0 := hprev 0 (by norm_num)
        have h1 := hprev 1 (by norm_num)
        simp [fetchAttempts, max_retries, attemptLoop_succ, h0, h1, hs]
  · intro o i
    constructor
    · intro h
      obtain ⟨_, hb, hc, hd⟩ := (attemptLoop_inv o max_retries 0).2.1 i h
      exact ⟨by omega, fun j hj => hc j (by omega) hj, hd⟩
    · rintro ⟨hi, hprev, hf⟩
      have hi3 : i < 3 := hi
      interval_cases i
      · simp [fetchAttempts, max_retries, attemptLoop_succ, hf]
      · have h0 := hprev 0 (by norm_num)
        simp [fetchAttempts, max_retries, attemptLoop_succ, h0, hf]
      · have h0 := hprev 0 (by norm_num)
        have h1 := hprev 1 (by norm_num)
        simp [fetchAttempts, max_retries, attemptLoop_succ, h0, h1, hf]
  · intro o
    constructor
    · intro h j hj
      exact (attemptLoop_inv o max_retries 0).2.2 h j (by omega) (by omega)
    · intro h
      have h0 := h 0 (by norm_num [max_retries])
      have h1 := h 1 (by norm_num [max_retries])
      have h2 := h 2 (by norm_num [max_retries])
      simp [fetchAttempts, max_retries, attemptLoop_succ, h0, h1, h2]
  · intro o o' h
    exact attemptLoop_agree o o' max_retries 0 (fun j hj => h j (by omega))

/-- Witness for C5: a first-attempt success is returned immediately. -/
theorem fetch_retry_semantics_witness :
    fetchAttempts (fun _ => .success "payload") = .gotPayload 0 "payload" :=
  (fetch_retry_semantics.1 (fun _ => .success "payload") 0 "payload").mpr
    ⟨by norm_num [max_retries], fun j hj => absurd hj (Nat.not_lt_zero j), rfl⟩

/-- C6: the resolved vehicle identity is the (non-empty) vehicle-level
identifier when present, else the non-empty entity-level identifier, else
the literal "unknown"; it is never the empty string, and every kept
record carries exactly this resolved identity. -/
theorem vehicle_identity_resolution :
    (∀ (vid : Option String) (eid : String), resolveVehicleId vid eid ≠ "")
    ∧ (∀ (vid : Option String) (eid : String) (s : String),
        vid = some s → s ≠ "" → resolveVehicleId vid eid = s)
    ∧ (∀ (vid : Option String) (eid : String),
        (vid = none ∨ vid = some "") → eid ≠ "" → resolveVehicleId vid eid = eid)
    ∧ (∀ (vid : Option String) (eid : String),
        (vid = none ∨ vid = some "") → eid = "" → resolveVehicleId vid eid = "unknown")
    ∧ (∀ (e : FeedEntity) (r : Record), checkEntity e = .keep r →
        r.vehicle_id = resolveVehicleId e.vehicle.id e.id) := by
  refine ⟨?_, ?_, ?_, ?_, ?_⟩
  · intro vid eid
    cases vid with
    | none =>
      by_cases he : eid = "" <;> simp [resolveVehicleId, he]
    | some s =>
      by_cases hs : s = ""
      · by_cases he : eid = "" <;> simp [resolveVehicleId, hs, he]
      · simp [resolveVehicleId, hs]
  · intro vid eid s hv hs
    subst hv
    simp [resolveVehicleId, hs]
  · intro vid eid hv he
    rcases hv with hv | hv <;> subst hv <;> simp [resolveVehicleId, he]
  · intro vid eid hv he
    subst he
    rcases hv with hv | hv <;> subst hv <;> simp [resolveVehicleId]
  · intro e r hr
    obtain ⟨pos, ts, hp, ht, hl, hs, _, hc, hrec⟩ := checkEntity_keep_inv hr
    subst hrec
    rfl

/-- Witness for C6: concrete resolutions of the three fallback layers. -/
theorem vehicle_identity_resolution_witness :
    resolveVehicleId (some "B1") "E9" = "B1"
    ∧ resolveVehicleId (some "") "E9" = "E9"
    ∧ resolveVehicleId none "" = "unknown" :=
  ⟨vehicle_identity_resolution.2.1 (some "B1") "E9" "B1" rfl (by decide),
   vehicle_identity_resolution.2.2.1 (some "") "E9" (Or.inr rfl) (by decide),
   vehicle_identity_resolution.2.2.2.1 none "" (Or.inl rfl) rfl⟩

/-- Environment whose fetch and decode succeed, delivering a single
vehicle entity whose timestamp overflows int64, with every write able to
succeed. -/
def envOverflow : Env :=
  { oracle := fun _ => .success "payload",
    decode := fun _ => some [overflowEntity],
    rawWriteOk := true, countAppendOk := true, summaryAppendOk := true }

/-- C7 counterexample: "exit 1 exactly when one of the enumerated fatal
conditions occurs" is false of the program. In `envOverflow` the fetch
returns a payload, it decodes to one vehicle entity, validation does not
complete with zero records (it raises `OverflowError`), and the raw
write would succeed — none of the enumerated conditions — yet `main`'s
blanket `except Exception` catches the escaping exception and exits 1. -/
theorem exit_code_fatal_conditions_counterexample :
    (runMain envOverflow).1 = 1
    ∧ ¬(fetchedPayload envOverflow = none
        ∨ (∃ p, fetchedPayload envOverflow = some p ∧ envOverflow.decode p = none)
        ∨ (∃ ents, decodedVehicles envOverflow = some ents ∧ ents = [])
        ∨ (∃ ents rows skipped, decodedVehicles envOverflow = some ents
            ∧ processVehicles ents = some (rows, skipped) ∧ rows = [])
        ∨ (∃ ents, decodedVehicles envOverflow = some ents
            ∧ envOverflow.rawWriteOk = false)) := by
  have hdv : decodedVehicles envOverflow = some [overflowEntity] := rfl
  have hpv : processVehicles [overflowEntity] = none := by decide
  constructor
  · rw [runMain_of_abort hdv hpv]
  · have hfpv : fetchedPayload envOverflow = some "payload" := rfl
    rintro (h | ⟨p, hp, hd⟩ | ⟨ents, he, hnil⟩ |
      ⟨ents, rows, skipped, he, hpv', hrows⟩ | ⟨ents, he, hw⟩)
    · rw [hfpv] at h
      exact absurd h (by simp)
    · simp [envOverflow] at hd
    · subst hnil
      rw [hdv] at he
      exact absurd (Option.some_inj.mp he) (by simp)
    · rw [hdv] at he
      have hee : [overflowEntity] = ents := Option.some_inj.mp he
      rw [← hee, hpv] at hpv'
      exact absurd hpv' (by simp)
    · simp [envOverflow] at hw

/-- C7 amended: the exit code is 0 or 1, it is 1 exactly when a fatal
condition holds — no fetched payload, protobuf decode failure, zero
vehicle-telemetry entities, an exception escaping `process_vehicles`
(the uncaught timestamp `OverflowError`), zero valid records after a
completed validation, or raw-store write failure — and flipping the
non-fatal append outcomes never changes it. -/
theorem exit_code_fatal_conditions_amended :
    ∀ env : Env,
      ((runMain env).1 = 0 ∨ (runMain env).1 = 1)
      ∧ ((runMain env).1 = 1 ↔
          fetchedPayload env = none
          ∨ (∃ p, fetchedPayload env = some p ∧ env.decode p = none)
          ∨ (∃ ents, decodedVehicles env = some ents ∧ ents = [])
          ∨ (∃ ents, decodedVehicles env = some ents ∧ processVehicles ents = none)
          ∨ (∃ ents rows skipped, decodedVehicles env = some ents
              ∧ processVehicles ents = some (rows, skipped) ∧ rows = [])
          ∨ (∃ ents, decodedVehicles env = some ents ∧ env.rawWriteOk = false))
      ∧ (∀ b1 b2 : Bool,
          (runMain { env with countAppendOk := b1, summaryAppendOk := b2 }).1
            = (runMain env).1) := by
  intro env
  refine ⟨?_, ?_, ?_⟩
  · rw [runMain]
    cases decodedVehicles env with
    | none => right; rfl
    | some ents =>
      by_cases he : ents.isEmpty
      · simp [he]
      · cases hpf : processedFrame ents with
        | none => simp [he, hpf]
        | some df =>
          by_cases hdf : df.isEmpty
          · simp [he, hpf, hdf]
          · by_cases hw : env.rawWriteOk
            · simp [he, hpf, hdf, hw]
            · simp [he, hpf, hdf, hw]
  · cases hdv : decodedVehicles env with
    | none =>
      rw [runMain_of_dv_none hdv]
      simp only [true_iff]
      cases hfp : fetchedPayload env with
      | none => exact Or.inl rfl
      | some p =>
        cases hd : env.decode p with
        | none => exact Or.inr (Or.inl ⟨p, rfl, hd⟩)
        | some dec =>
          simp [decodedVehicles, hfp, hd] at hdv
    | some ents =>
      have hfp : ∃ p dec, fetchedPayload env = some p ∧ env.decode p = some dec := by
        cases hfp : fetchedPayload env with
        | none => simp [decodedVehicles, hfp] at hdv
        | some p =>
          cases hd : env.decode p with
          | none => simp [decodedVehicles, hfp, hd] at hdv
          | some dec => exact ⟨p, dec, rfl, hd⟩
      obtain ⟨p, dec, hfp, hd⟩ := hfp
      by_cases he : ents = []
      · subst he
        rw [runMain_of_ents_nil hdv]
        simp only [true_iff]
        exact Or.inr (Or.inr (Or.inl ⟨[], rfl, rfl⟩))
      · cases hpv : processVehicles ents with
        | none =>
          rw [runMain_of_abort hdv hpv]
          simp only [true_iff]
          exact Or.inr (Or.inr (Or.inr (Or.inl ⟨ents, rfl, hpv⟩)))
        | some pr =>
          obtain ⟨rows, skipped⟩ := pr
          by_cases hrows : rows = []
          · subst hrows
            rw [runMain_of_rows_nil hdv hpv]
            simp only [true_iff]
            exact Or.inr (Or.inr (Or.inr (Or.inr (Or.inl
              ⟨ents, [], skipped, rfl, hpv, rfl⟩))))
          · by_cases hw : env.rawWriteOk
            · have hne : ents.isEmpty = false := by
                cases ents with
                | nil => exact absurd rfl he
                | cons a as => rfl
              rw [runMain_success hdv hne hpv hrows hw]
              constructor
              · intro h01
                simp at h01
              · rintro (h | ⟨q, hq, hdq⟩ | ⟨ents', hents', hnil⟩ |
                  ⟨ents', hents', habort⟩ |
                  ⟨ents', rows', skipped', hents', hpv', hrows'⟩ |
                  ⟨ents', hents', hw'⟩)
                · rw [h] at hfp; exact absurd hfp (by simp)
                · rw [hfp] at hq
                  have hpq : p = q := Option.some_inj.mp hq
                  rw [← hpq] at hdq
                  rw [hdq] at hd
                  exact absurd hd (by simp)
                · exact absurd ((Option.some_inj.mp hents').trans hnil) he
                · have hee : ents = ents' := Option.some_inj.mp hents'
                  rw [← hee] at habort
                  rw [habort] at hpv
                  exact absurd hpv (by simp)
                · have hee : ents = ents' := Option.some_inj.mp hents'
                  rw [← hee] at hpv'
                  rw [hpv] at hpv'
                  have hr2 : rows = rows' :=
                    congrArg Prod.fst (Option.some_inj.mp hpv')
                  exact absurd (hr2.trans hrows') hrows
                · rw [hw'] at hw
                  exact absurd hw (by simp)
            · have hw' : env.rawWriteOk = false := by
                cases hb : env.rawWriteOk
                · rfl
                · exact absurd hb hw
              rw [runMain_exit1_of_raw_fail hdv hw']
              simp only [true_iff]
              exact Or.inr (Or.inr (Or.inr (Or.inr (Or.inr ⟨ents, rfl, hw'⟩))))
  · intro b1 b2
    rw [runMain, runMain, decodedVehicles_update]
    cases decodedVehicles env with
    | none => rfl
    | some ents =>
      by_cases he : ents.isEmpty
      · simp [he]
      · cases hpf : processedFrame ents with
        | none => simp [he, hpf]
        | some df =>
          by_cases hdf : df.isEmpty
          · simp [he, hpf, hdf]
          · by_cases hw : env.rawWriteOk
            · simp [he, hpf, hdf, hw]
            · simp [he, hpf, hdf, hw]

/-- C8: if all three fetch attempts time out the run exits 1 with no
store written or overwritten, and the same holds on any fatal fetch or
decode outcome (no payload, parse failure, zero vehicle entities). -/
theorem fatal_fetch_decode_no_writes :
    (∀ env : Env, (∀ j, j < max_retries → env.oracle j = .timeout) →
        runMain env = (1, noWrites))
    ∧ (∀ env : Env,
        decodedVehicles env = none ∨ decodedVehicles env = some [] →
        runMain env = (1, noWrites)) := by
  constructor
  · intro env h
    have hT : fetchAttempts env.oracle = .exitTimeout := by
      have h0 := h 0 (by norm_num [max_retries])
      have h1 := h 1 (by norm_num [max_retries])
      have h2 := h 2 (by norm_num [max_retries])
      simp [fetchAttempts, max_retries, attemptLoop_succ, h0, h1, h2]
    have hdv : decodedVehicles env = none := by
      rw [decodedVehicles, fetchedPayload, hT]
    exact runMain_of_dv_none hdv
  · intro env h
    rcases h with h | h
    · exact runMain_of_dv_none h
    · exact runMain_of_ents_nil h

/-- Environment in which every request times out. -/
def envAllTimeout : Env :=
  { oracle := fun _ => .timeout,
    decode := fun _ => some [scenarioEntityValid],
    rawWriteOk := true, countAppendOk := true, summaryAppendOk := true }

/-- Witness for C8 at the all-timeout environment. -/
theorem fatal_fetch_decode_no_writes_witness :
    runMain envAllTimeout = (1, noWrites) :=
  fatal_fetch_decode_no_writes.1 envAllTimeout (fun _ _ => rfl)

/-- C9: when the run reaches the persistence stage and the raw write
succeeds, a count-log append failure is non-fatal: the exit code is 0,
the summary append is still attempted, and its success is independent of
the count append. -/
theorem count_append_failure_nonfatal :
    ∀ (env : Env) (ents : List FeedEntity) (rows : List Record) (skipped : ℕ),
      decodedVehicles env = some ents → ents.isEmpty = false →
      processVehicles ents = some (rows, skipped) → rows ≠ [] →
      env.rawWriteOk = true → env.countAppendOk = false →
        (runMain env).1 = 0
        ∧ (runMain env).2.rawSucceeded = true
        ∧ (runMain env).2.countAttempted = true
        ∧ (runMain env).2.countSucceeded = false
        ∧ (runMain env).2.summaryAttempted = true
        ∧ (runMain env).2.summarySucceeded = env.summaryAppendOk := by
  intro env ents rows skipped hdv hne hpv hrows hw hc
  rw [runMain_success hdv hne hpv hrows hw]
  exact ⟨rfl, rfl, rfl, hc, rfl, rfl⟩

/-- Environment whose fetch and raw write succeed but whose count-log
append fails. -/
def envCountFail : Env :=
  { oracle := fun _ => .success "payload",
    decode := fun _ => some scenarioFeed,
    rawWriteOk := true, countAppendOk := false, summaryAppendOk := true }

/-- Witness for C9 at the count-append-failure environment. -/
theorem count_append_failure_nonfatal_witness :
    (runMain envCountFail).1 = 0
    ∧ (runMain envCountFail).2.rawSucceeded = true
    ∧ (runMain envCountFail).2.countAttempted = true
    ∧ (runMain envCountFail).2.countSucceeded = false
    ∧ (runMain envCountFail).2.summaryAttempted = true
    ∧ (runMain envCountFail).2.summarySucceeded = envCountFail.summaryAppendOk :=
  count_append_failure_nonfatal envCountFail scenarioFeed [scenarioRecord] 2
    rfl rfl (by decide) (by decide) rfl rfl

/-- C10: an entity with position and timestamp present, valid location
and convertible timestamp but no speed field is kept with speed defaulted
to 0.0 (the skipped counter stays 0), and all four pollutant estimates of
its record are 0.00. -/
theorem missing_speed_defaults_to_zero :
    ∀ (e : FeedEntity) (pos : Position) (ts : ℤ),
      e.vehicle.position = some pos → e.vehicle.timestamp = some ts →
      pos.speed = none →
      validate_location pos.latitude pos.longitude = true →
      timestampConvertible ts = true →
      ∃ r, checkEntity e = .keep r
        ∧ processVehicles [e] = some ([r], 0)
        ∧ r.speed_m_s = 0
        ∧ r.CO = 0 ∧ r.NOx = 0 ∧ r.PM25 = 0 ∧ r.CO2 = 0 := by
  intro e pos ts hp ht hsp hl hc
  have hspeed : pos.speed.getD 0.0 = 0.0 := by rw [hsp]; rfl
  have hs : validate_speed (pos.speed.getD 0.0) = true := by
    rw [hspeed]; decide
  refine ⟨_, checkEntity_keep_of hp ht hl hs hc, ?_, ?_, ?_, ?_, ?_, ?_⟩
  · rw [processVehicles, processLoop, checkEntity_keep_of hp ht hl hs hc]
    rfl
  · show roundTo 2 (pos.speed.getD 0.0) = 0
    rw [hspeed]; decide
  · show roundTo 2 (EMISSION_FACTORS .CO * (pos.speed.getD 0.0 * 3.6 / 60.0)) = 0
    rw [hspeed]; decide
  · show roundTo 2 (EMISSION_FACTORS .NOx * (pos.speed.getD 0.0 * 3.6 / 60.0)) = 0
    rw [hspeed]; decide
  · show roundTo 2 (EMISSION_FACTORS .PM25 * (pos.speed.getD 0.0 * 3.6 / 60.0)) = 0
    rw [hspeed]; decide
  · show roundTo 2 (EMISSION_FACTORS .CO2 * (pos.speed.getD 0.0 * 3.6 / 60.0)) = 0
    rw [hspeed]; decide

/-- Witness for C10 at the concrete speed-less entity. -/
theorem missing_speed_defaults_to_zero_witness :
    ∃ r, checkEntity scenarioEntityNoSpeed = .keep r
      ∧ processVehicles [scenarioEntityNoSpeed] = some ([r], 0)
      ∧ r.speed_m_s = 0
      ∧ r.CO = 0 ∧ r.NOx = 0 ∧ r.PM25 = 0 ∧ r.CO2 = 0 :=
  missing_speed_defaults_to_zero scenarioEntityNoSpeed
    (Position.mk 28.7 77.1 none) 1700000200 rfl rfl rfl (by decide) (by decide)

end AirVision
